import Mathlib

/-!
Shallow embedding of `src/data/uds_extraction.py` (UDS table extraction and
dataset utilities) and proofs about it.

Modelling conventions:
- A pandas cell is a `Value`: `na` (NaN / absent), a number (`num`, modelled as
  an exact rational), or a boolean (`bool`, which pandas compares numerically,
  `True = 1`, `False = 0`).
- A `DataFrame` is a list of column names plus a list of rows (each row a list
  of values positionally aligned with the columns). `DataFrame.Aligned` states
  the alignment pandas maintains by construction.
- PDF table rows (pdfplumber output) are `List (Option String)`: a cell is
  either absent (`None` in Python) or a string.
- Python string `strip` / `lower` / `tok in text` are embedded over character
  lists (`pyStrip`, `pyLower`, `strContains`); the documents involved are
  ASCII, where these agree with Python's semantics.
- Fallible pandas operations (column lookup `df[cols]` raising `KeyError`,
  `drop_duplicates` on a frame lacking the subset column) return `Except`.
-/

/-- A scalar cell value as pandas sees it: NaN/absent, a number, or a bool. -/
inductive Value
  | na
  | num (q : ℚ)
  | bool (b : Bool)
deriving DecidableEq

/-- Numeric view of a value: pandas compares `True`/`False` as `1`/`0`. -/
def Value.toNum : Value → Option ℚ
  | .na => none
  | .num q => some q
  | .bool b => some (if b then 1 else 0)

/-- `series.notna()` for one cell. -/
def Value.notna : Value → Bool
  | .na => false
  | _ => true

/-- `series.notna() & (series != missing_sentinel)` for one cell
(`_is_valid` in `tag_assessments`, and the same test in
`compute_empty_rows_mask` / `summarize_availability`). -/
def isValid (v : Value) (m : ℚ) : Bool :=
  v.notna && (match v.toNum with
    | some q => decide (q ≠ m)
    | none => true)

/-- In-memory pandas DataFrame: column names plus positionally aligned rows. -/
structure DataFrame where
  cols : List String
  rows : List (List Value)
deriving DecidableEq

/-- pandas keeps every row the same length as the column index. -/
def DataFrame.Aligned (df : DataFrame) : Prop :=
  ∀ r ∈ df.rows, r.length = df.cols.length

instance (df : DataFrame) : Decidable df.Aligned := by
  unfold DataFrame.Aligned; infer_instance

/-- Index of the first column with the given name (pandas label lookup). -/
def colIdx : List String → String → Option Nat
  | [], _ => none
  | x :: xs, c => if x = c then some 0 else (colIdx xs c).map (· + 1)

/-- The value a row holds in the named column (`row[c]`); `na` if absent. -/
def lookupCell (cols : List String) (row : List Value) (c : String) : Value :=
  match colIdx cols c with
  | some j => row.getD j Value.na
  | none => Value.na

/-- Cell of the `i`-th record in the named column. -/
def DataFrame.cell (df : DataFrame) (i : Nat) (c : String) : Value :=
  lookupCell df.cols (df.rows.getD i []) c

/-- `df[cols]` row values: selects the named columns, in the order given,
raising `KeyError` if any name is absent from the frame. -/
def selectAll (df : DataFrame) (cols : List String) : Except String (List (List Value)) :=
  if cols.all (fun c => df.cols.contains c)
  then .ok (df.rows.map (fun row => cols.map (fun c => lookupCell df.cols row c)))
  else .error "KeyError: columns not in index"

/-- `df[name] = vals` column assignment: replaces the column in place when the
name exists, otherwise appends it as the last column. -/
def DataFrame.setCol (df : DataFrame) (name : String) (vals : List Value) : DataFrame :=
  match colIdx df.cols name with
  | some j => ⟨df.cols, (df.rows.zip vals).map (fun p => p.1.set j p.2)⟩
  | none => ⟨df.cols ++ [name], (df.rows.zip vals).map (fun p => p.1 ++ [p.2])⟩

/- ### Python string primitives over character lists -/

/-- Python `str.isspace` characters relevant to `str.strip()` (ASCII range). -/
def pyIsSpace (c : Char) : Bool :=
  c = ' ' || c = '\t' || c = '\n' || c = '\r' || c = '\x0b' || c = '\x0c'

/-- Characters of `s.strip()`. -/
def pyStripChars (l : List Char) : List Char :=
  ((l.dropWhile pyIsSpace).reverse.dropWhile pyIsSpace).reverse

/-- Python `s.strip()`. -/
def pyStrip (s : String) : String := String.mk (pyStripChars s.data)

/-- Python `s.lower()` on one character (ASCII). -/
def pyLowerChar (c : Char) : Char :=
  if 'A' ≤ c ∧ c ≤ 'Z' then Char.ofNat (c.toNat + 32) else c

/-- Python `s.lower()` (ASCII). -/
def pyLower (s : String) : String := String.mk (s.data.map pyLowerChar)

/-- Does the character list start with the given pattern? -/
def startsWithChars : List Char → List Char → Bool
  | _, [] => true
  | [], _ :: _ => false
  | a :: hs, b :: ps => a == b && startsWithChars hs ps

/-- Contiguous-substring test over character lists. -/
def containsChars : List Char → List Char → Bool
  | [], ps => startsWithChars [] ps
  | h :: t, ps => startsWithChars (h :: t) ps || containsChars t ps

/-- Python `tok in text` (substring containment). -/
def strContains (text tok : String) : Bool := containsChars text.data tok.data

/-- Python truthiness of an optional string: `None` and `""` are falsy. -/
def pyTruthy : Option String → Bool
  | none => false
  | some s => s ≠ ""

/-- Python `a or b or ""` over two optional strings. -/
def firstTruthy (a b : Option String) : String :=
  if pyTruthy a then a.getD "" else if pyTruthy b then b.getD "" else ""

/- ### `_iter_variable_rows` -/

/-- The filter `_iter_variable_rows` applies to one extracted row: keep rows
with at least 3 cells, whose cell 2 is not the header "Variable name"
(case-insensitively, trimmed) and is a non-empty, non-whitespace string.
(`not row` in the source is subsumed by `len(row) < 3`; a `None` cell 2 is
falsy in Python, so such rows are not yielded.) -/
def rowQualifies (row : List (Option String)) : Bool :=
  if row.length < 3 then false
  else
    match row.getD 2 none with
    | none => false
    | some s =>
      if pyLower (pyStrip s) = "variable name" then false
      else !(s = "") && !(pyStrip s = "")

/-- `_iter_variable_rows`: all qualifying rows, in page order then row order. -/
def iter_variable_rows (all_pages_rows : List (List (List (Option String)))) :
    List (List (Option String)) :=
  (all_pages_rows.map (fun page_rows => page_rows.filter rowQualifies)).flatten

/- ### `build_variable_catalog` -/

/-- One record of the variable catalog. -/
structure CatalogEntry where
  form_field : String
  variable_name : String
  label : String
  source_page : Nat
deriving DecidableEq

/-- `form_field` heuristic of `build_variable_catalog`:
`(row[0] or row[1] or "").strip() if len(row) > 1 else (row[0] or "")`. -/
def mkFormField (row : List (Option String)) : String :=
  if row.length > 1 then pyStrip (firstTruthy (row.getD 0 none) (row.getD 1 none))
  else firstTruthy (row.getD 0 none) none

/-- Loop body of `build_variable_catalog` for one yielded row: apply the
`forms_filter` substring test to `form_field` (note `text = form_field or ""`
equals `form_field` as a string), extract `variable_name` from cell 2 and
`label` from cell 3, and keep the record when `variable_name` is non-empty. -/
def mkEntry (forms_filter : List String) (page_idx : Nat) (row : List (Option String)) :
    Option CatalogEntry :=
  let form_field := mkFormField row
  if !forms_filter.isEmpty && !(forms_filter.any (fun tok => strContains form_field tok)) then
    none
  else
    let variable_name := match row.getD 2 none with
      | some s => pyStrip s
      | none => ""
    let label := if row.length > 3 then
        match row.getD 3 none with
        | some s => pyStrip s
        | none => ""
      else ""
    if variable_name ≠ "" then
      some ⟨form_field, variable_name, label, page_idx⟩
    else none

/-- The `records` list of `build_variable_catalog`. The source iterates
`enumerate(_iter_variable_rows(all_pages_rows), start=start)` and stores the
enumeration counter as `source_page`; the counter advances once per *yielded
row*, not per page. -/
def build_records (all_pages_rows : List (List (List (Option String)))) (start : Nat)
    (forms_filter : List String) : List CatalogEntry :=
  (iter_variable_rows all_pages_rows).enum.filterMap
    (fun p => mkEntry forms_filter (start + p.1) p.2)

/-- `DataFrame.drop_duplicates("variable_name")` (default `keep="first"`):
keep the first record for each `variable_name`, preserving order. `seen`
accumulates the names already kept. -/
def drop_duplicates_variable_name : List CatalogEntry → List String → List CatalogEntry
  | [], _ => []
  | e :: rest, seen =>
    if e.variable_name ∈ seen then drop_duplicates_variable_name rest seen
    else e :: drop_duplicates_variable_name rest (e.variable_name :: seen)

/-- `build_variable_catalog`, parameterized by the extracted per-page rows
(the result of `extract_pdf_tables(pdf_path, range(start, end + 1))`, whose
I/O is outside the embedding) and the `start` of the page range.
`pd.DataFrame.from_records([])` has no columns, so `drop_duplicates` raises
`KeyError` when no record qualifies. -/
def build_variable_catalog (all_pages_rows : List (List (List (Option String))))
    (start : Nat) (forms_filter : List String) : Except String (List CatalogEntry) :=
  if (build_records all_pages_rows start forms_filter).isEmpty then
    .error "KeyError: variable_name"
  else .ok (drop_duplicates_variable_name (build_records all_pages_rows start forms_filter) [])

/- ### `select_dataset_columns` -/

/-- `select_dataset_columns`: `vars_in_df` walks the catalog's
`variable_name` column, keeping the names present among the dataset columns,
and `df.loc[:, vars_in_df]` selects those columns — in `vars_in_df`'s
(i.e. the catalog's) order. -/
def select_dataset_columns (df : DataFrame) (catalog : List CatalogEntry) : DataFrame :=
  let vars_in_df :=
    (catalog.map CatalogEntry.variable_name).filter (fun v => df.cols.contains v)
  ⟨vars_in_df, df.rows.map (fun row => vars_in_df.map (fun v => lookupCell df.cols row v))⟩

/-- The column order the specification asserts for the Column Aligner
(written from the spec's words, for comparison with the source embedding):
the dataset's columns, in the dataset's original order, restricted to names
occurring in the catalog. -/
def select_dataset_columns_spec_order (df : DataFrame) (catalog : List CatalogEntry) :
    List String :=
  df.cols.filter (fun c => (catalog.map CatalogEntry.variable_name).contains c)

/- ### `tag_assessments` -/

/-- `tag_assessments`: returns a copy of `df` with boolean columns
`has_MMSE` and `has_MOCA`. Each flag column is, when its column group is
non-empty, `out[group].apply(lambda s: _is_valid(s).any(), axis=1)`; when the
group is empty the scalar `False` is broadcast. The `has_MMSE` right-hand
side is evaluated against the original frame; the `has_MOCA` right-hand side
is evaluated after `has_MMSE` has been assigned. A lookup of a name absent
from the frame raises `KeyError`, which propagates. -/
def tag_assessments (df : DataFrame) (mmse_cols moca_cols : List String) (m : ℚ) :
    Except String DataFrame :=
  let step1 : Except String (List Bool) :=
    if mmse_cols.isEmpty then .ok (df.rows.map (fun _ => false))
    else (selectAll df mmse_cols).map
      (fun sel => sel.map (fun vals => vals.any (fun v => isValid v m)))
  match step1 with
  | .error e => .error e
  | .ok mmseFlags =>
    let out1 := df.setCol "has_MMSE" (mmseFlags.map Value.bool)
    let step2 : Except String (List Bool) :=
      if moca_cols.isEmpty then .ok (out1.rows.map (fun _ => false))
      else (selectAll out1 moca_cols).map
        (fun sel => sel.map (fun vals => vals.any (fun v => isValid v m)))
    match step2 with
    | .error e => .error e
    | .ok mocaFlags => .ok (out1.setCol "has_MOCA" (mocaFlags.map Value.bool))

/- ### `compute_empty_rows_mask` -/

/-- `compute_empty_rows_mask`: one boolean per record, `true` iff the record
holds no valid value in any non-excluded column. -/
def compute_empty_rows_mask (df : DataFrame) (exclude : List String) (m : ℚ) : List Bool :=
  let data_cols := df.cols.filter (fun c => !(exclude.contains c))
  df.rows.map (fun row => !(data_cols.any (fun c => isValid (lookupCell df.cols row c) m)))

/- ### `summarize_availability` -/

/-- One row of the availability summary (`Column`, `Valid_Data_Count`,
`Percentage`). `Percentage` is modelled as an exact rational. -/
structure SummaryRow where
  Column : String
  Valid_Data_Count : Nat
  Percentage : ℚ
deriving DecidableEq

/-- The `rows` list `summarize_availability` builds before sorting: one
summary row per non-excluded column, in the frame's column order. (The
source then sorts by `Valid_Data_Count` descending via pandas `sort_values`
with its default, non-stable `quicksort` kind; the sort permutes these rows
without changing them.) -/
def summarize_availability_rows (df : DataFrame) (exclude : List String) (m : ℚ) :
    List SummaryRow :=
  let n := df.rows.length
  (df.cols.filter (fun col => !(exclude.contains col))).map (fun col =>
    let count := df.rows.countP (fun row => isValid (lookupCell df.cols row col) m)
    { Column := col, Valid_Data_Count := count,
      Percentage := if n ≠ 0 then (count : ℚ) / (n : ℚ) * 100 else 0 })

/- ### Helper lemmas -/

lemma contains_eq_true_iff_mem (l : List String) (c : String) :
    l.contains c = true ↔ c ∈ l := by
  simp [List.contains]

lemma colIdx_eq_none_of_not_mem (l : List String) (c : String) (h : c ∉ l) :
    colIdx l c = none := by
  induction l with
  | nil => rfl
  | cons x xs ih =>
    simp only [List.mem_cons, not_or] at h
    simp [colIdx, Ne.symm h.1, ih h.2]

lemma colIdx_lt_length (l : List String) (c : String) (j : Nat) (h : colIdx l c = some j) :
    j < l.length := by
  induction l generalizing j with
  | nil => simp [colIdx] at h
  | cons x xs ih =>
    by_cases hx : x = c
    · simp [colIdx, hx] at h
      simp only [List.length_cons]
      omega
    · simp only [colIdx, hx, if_false, Option.map_eq_some'] at h
      obtain ⟨k, hk, rfl⟩ := h
      have := ih k hk
      simp only [List.length_cons]
      omega

lemma colIdx_getD (l : List String) (c : String) (j : Nat) (d : String)
    (h : colIdx l c = some j) : l.getD j d = c := by
  induction l generalizing j with
  | nil => simp [colIdx] at h
  | cons x xs ih =>
    by_cases hx : x = c
    · simp [colIdx, hx] at h
      subst h
      simpa using hx
    · simp only [colIdx, hx, if_false, Option.map_eq_some'] at h
      obtain ⟨k, hk, rfl⟩ := h
      simpa using ih k hk

lemma colIdx_isSome_of_mem (l : List String) (c : String) (h : c ∈ l) :
    ∃ j, colIdx l c = some j := by
  induction l with
  | nil => simp at h
  | cons x xs ih =>
    by_cases hx : x = c
    · exact ⟨0, by simp [colIdx, hx]⟩
    · have hc : c ∈ xs := by
        rcases List.mem_cons.mp h with h1 | h1
        · exact absurd h1.symm hx
        · exact h1
      obtain ⟨j, hj⟩ := ih hc
      exact ⟨j + 1, by simp [colIdx, hx, hj]⟩

lemma colIdx_append_of_some (l l' : List String) (c : String) (j : Nat)
    (h : colIdx l c = some j) : colIdx (l ++ l') c = some j := by
  induction l generalizing j with
  | nil => simp [colIdx] at h
  | cons x xs ih =>
    by_cases hx : x = c
    · simp [colIdx, hx] at h ⊢
      exact h
    · simp only [colIdx, hx, if_false, Option.map_eq_some'] at h
      obtain ⟨k, hk, rfl⟩ := h
      simp [List.cons_append, colIdx, hx, ih k hk]

lemma colIdx_append_of_none (l l' : List String) (c : String)
    (h : colIdx l c = none) :
    colIdx (l ++ l') c = (colIdx l' c).map (fun j => j + l.length) := by
  induction l with
  | nil => simp [colIdx]
  | cons x xs ih =>
    by_cases hx : x = c
    · simp [colIdx, hx] at h
    · simp only [colIdx, hx, if_false, Option.map_eq_none'] at h
      simp only [List.cons_append, colIdx, hx, if_false, List.append_eq, ih h,
        Option.map_map]
      cases colIdx l' c with
      | none => rfl
      | some j =>
        simp only [Option.map_some', List.length_cons, Function.comp]
        congr 1

lemma getD_map_of_lt {α β : Type} (f : α → β) (l : List α) (i : Nat) (a : α) (b : β)
    (h : i < l.length) : (l.map f).getD i b = f (l.getD i a) := by
  induction l generalizing i with
  | nil => simp at h
  | cons x xs ih =>
    cases i with
    | zero => simp
    | succ k =>
      simp only [List.map_cons, List.getD_cons_succ]
      exact ih k (by simpa using Nat.lt_of_succ_lt_succ h)

lemma getD_append_left {α : Type} (l l' : List α) (j : Nat) (d : α) (h : j < l.length) :
    (l ++ l').getD j d = l.getD j d := by
  induction l generalizing j with
  | nil => simp at h
  | cons x xs ih =>
    cases j with
    | zero => simp
    | succ k =>
      simp only [List.cons_append, List.getD_cons_succ]
      exact ih k (by simpa using Nat.lt_of_succ_lt_succ h)

lemma getD_append_right_self {α : Type} (l l' : List α) (k : Nat) (d : α) :
    (l ++ l').getD (l.length + k) d = l'.getD k d := by
  induction l with
  | nil => simp
  | cons x xs ih =>
    simpa [Nat.succ_add] using ih

lemma zip_self_map {α β : Type} (l : List α) (g : α → β) :
    l.zip (l.map g) = l.map (fun a => (a, g a)) := by
  induction l with
  | nil => rfl
  | cons x xs ih => simp [ih]

lemma any_over_map {α β : Type} (l : List α) (f : α → β) (p : β → Bool) :
    (l.map f).any p = l.any (fun a => p (f a)) := by
  induction l with
  | nil => rfl
  | cons x xs ih => simp [ih]

lemma lookupCell_map_of_mem (names : List String) (f : String → Value) (c : String)
    (h : c ∈ names) : lookupCell names (names.map f) c = f c := by
  obtain ⟨j, hj⟩ := colIdx_isSome_of_mem names c h
  have hlt := colIdx_lt_length names c j hj
  have hcell : lookupCell names (names.map f) c = (names.map f).getD j Value.na := by
    simp [lookupCell, hj]
  rw [hcell, getD_map_of_lt f names j "" Value.na hlt, colIdx_getD names c j "" hj]

lemma lookupCell_map_of_not_mem (names : List String) (f : String → Value) (c : String)
    (h : c ∉ names) : lookupCell names (names.map f) c = Value.na := by
  rw [lookupCell, colIdx_eq_none_of_not_mem names c h]

lemma lookupCell_nil (cols : List String) (c : String) :
    lookupCell cols [] c = Value.na := by
  cases h : colIdx cols c <;> simp [lookupCell, h]

lemma drop_dup_sublist (rs : List CatalogEntry) (seen : List String) :
    (drop_duplicates_variable_name rs seen).Sublist rs := by
  induction rs generalizing seen with
  | nil => simp [drop_duplicates_variable_name]
  | cons e rest ih =>
    by_cases he : e.variable_name ∈ seen
    · simp only [drop_duplicates_variable_name, if_pos he]
      exact (ih seen).trans (List.sublist_cons_self e rest)
    · simp only [drop_duplicates_variable_name, if_neg he]
      exact (ih _).cons₂ e

lemma drop_dup_filter (rs : List CatalogEntry) (seen : List String) (v : String) :
    (drop_duplicates_variable_name rs seen).filter (fun e => e.variable_name = v) =
      if v ∈ seen then [] else (rs.find? (fun e => e.variable_name = v)).toList := by
  induction rs generalizing seen with
  | nil => simp [drop_duplicates_variable_name]
  | cons e rest ih =>
    by_cases he : e.variable_name ∈ seen
    · by_cases hv : v ∈ seen
      · simp [drop_duplicates_variable_name, he, ih, hv]
      · have hne : e.variable_name ≠ v := fun hh => hv (hh ▸ he)
        simp [drop_duplicates_variable_name, he, ih, hv, List.find?_cons, hne]
    · by_cases hv : v ∈ seen
      · have hne : e.variable_name ≠ v := fun hh => he (hh ▸ hv)
        simp [drop_duplicates_variable_name, he, List.filter_cons, hne, ih,
          List.mem_cons, hv]
      · by_cases hev : e.variable_name = v
        · subst hev
          have h2 := ih (e.variable_name :: seen)
          simp only [List.mem_cons, eq_self_iff_true, true_or, if_pos] at h2
          simp [drop_duplicates_variable_name, he, List.filter_cons, List.find?_cons,
            h2, hv]
        · have hev' : ¬ v = e.variable_name := fun hh => hev hh.symm
          simp [drop_duplicates_variable_name, he, List.filter_cons, hev, ih,
            List.mem_cons, hv, List.find?_cons, hev']

lemma drop_dup_names_nodup (rs : List CatalogEntry) (seen : List String) :
    ((drop_duplicates_variable_name rs seen).map CatalogEntry.variable_name).Nodup ∧
    ∀ e ∈ drop_duplicates_variable_name rs seen, e.variable_name ∉ seen := by
  induction rs generalizing seen with
  | nil => simp [drop_duplicates_variable_name]
  | cons e rest ih =>
    by_cases he : e.variable_name ∈ seen
    · simpa [drop_duplicates_variable_name, he] using ih seen
    · obtain ⟨h1, h2⟩ := ih (e.variable_name :: seen)
      refine ⟨?_, ?_⟩
      · simp only [drop_duplicates_variable_name, if_neg he, List.map_cons, List.nodup_cons]
        refine ⟨?_, h1⟩
        intro hmem
        obtain ⟨e', he', heq⟩ := List.mem_map.mp hmem
        exact (h2 e' he') (heq ▸ List.mem_cons_self _ _)
      · intro e' he'
        simp only [drop_duplicates_variable_name, if_neg he, List.mem_cons] at he'
        rcases he' with rfl | he'
        · exact he
        · intro hs
          exact (h2 e' he') (List.mem_cons_of_mem _ hs)

/- ### Claim C7 -/

/-- C7: the Catalog Builder's row filter excludes every row with fewer than
3 cells, every row whose cell at index 2 trimmed and lowercased equals
"variable name", and every row whose cell at index 2 is empty after trimming;
no such row is yielded by `_iter_variable_rows` (and `build_variable_catalog`
builds its records only from the yielded rows). -/
theorem iter_variable_rows_excludes
    (all_pages_rows : List (List (List (Option String)))) (row : List (Option String))
    (h : row.length < 3 ∨
      (∃ s, row.getD 2 none = some s ∧ pyLower (pyStrip s) = "variable name") ∨
      (∃ s, row.getD 2 none = some s ∧ pyStrip s = "")) :
    rowQualifies row = false ∧ row ∉ iter_variable_rows all_pages_rows := by
  have hq : rowQualifies row = false := by
    rcases h with h | ⟨s, hs, hh⟩ | ⟨s, hs, hh⟩
    · simp [rowQualifies, h]
    · by_cases hlen : row.length < 3
      · simp [rowQualifies, hlen]
      · unfold rowQualifies
        rw [if_neg hlen, hs]
        simp [hh]
    · by_cases hlen : row.length < 3
      · simp [rowQualifies, hlen]
      · unfold rowQualifies
        rw [if_neg hlen, hs]
        by_cases hv : pyLower (pyStrip s) = "variable name"
        · simp [hv]
        · simp [hv, hh]
  refine ⟨hq, ?_⟩
  intro hmem
  unfold iter_variable_rows at hmem
  simp only [List.mem_flatten, List.mem_map] at hmem
  obtain ⟨l, ⟨page, hpage, rfl⟩, hrow⟩ := hmem
  have hqt := List.of_mem_filter hrow
  rw [hq] at hqt
  exact absurd hqt (by simp)

/-- Witness for C7 at a concrete header row (cell 2 trims and lowercases to
"variable name") inside a one-page document. -/
theorem iter_variable_rows_excludes_witness :
    rowQualifies [some "C1", some "x", some " Variable Name "] = false ∧
      [some "C1", some "x", some " Variable Name "] ∉
        iter_variable_rows [[[some "C1", some "x", some " Variable Name "]]] :=
  iter_variable_rows_excludes [[[some "C1", some "x", some " Variable Name "]]]
    [some "C1", some "x", some " Variable Name "]
    (Or.inr (Or.inl ⟨" Variable Name ", rfl, by decide⟩))

/- ### Claim C8 -/

/-- C8: whenever `build_variable_catalog` returns a catalog, its
`variable_name` values are pairwise distinct (`drop_duplicates` keeps one
entry per name). -/
theorem build_variable_catalog_names_unique
    (all_pages_rows : List (List (List (Option String)))) (start : Nat)
    (forms_filter : List String) (cat : List CatalogEntry)
    (h : build_variable_catalog all_pages_rows start forms_filter = .ok cat) :
    (cat.map CatalogEntry.variable_name).Nodup := by
  unfold build_variable_catalog at h
  split at h
  · exact absurd h (by simp)
  · injection h with h
    subst h
    exact (drop_dup_names_nodup _ []).1

/-- Concrete one-page extraction with a duplicated variable name, used by the
C8 and C10 witnesses. -/
def pagesDupName : List (List (List (Option String))) :=
  [[[some "C1", some "", some "C1SCORE", some "first"],
    [some "C1", some "", some "C1SCORE", some "second"]]]

/-- Witness for C8: the catalog built from `pagesDupName` has distinct names. -/
theorem build_variable_catalog_names_unique_witness :
    (([⟨"C1", "C1SCORE", "first", 0⟩] : List CatalogEntry).map
      CatalogEntry.variable_name).Nodup :=
  build_variable_catalog_names_unique pagesDupName 0 ["C1", "C2"]
    [⟨"C1", "C1SCORE", "first", 0⟩] rfl

/- ### Claim C10 -/

/-- C10: whenever `build_variable_catalog` returns a catalog, the catalog is
a sublist of the extracted records (surviving entries keep their insertion
order), and for every name `v` the catalog's entries named `v` are exactly
the first record named `v` in page-then-row iteration order (first-seen wins,
later occurrences dropped). -/
theorem build_variable_catalog_first_seen_wins
    (all_pages_rows : List (List (List (Option String)))) (start : Nat)
    (forms_filter : List String) (cat : List CatalogEntry)
    (h : build_variable_catalog all_pages_rows start forms_filter = .ok cat) :
    cat.Sublist (build_records all_pages_rows start forms_filter) ∧
    ∀ v, cat.filter (fun e => e.variable_name = v) =
      ((build_records all_pages_rows start forms_filter).find?
        (fun e => e.variable_name = v)).toList := by
  unfold build_variable_catalog at h
  split at h
  · exact absurd h (by simp)
  · injection h with h
    subst h
    refine ⟨drop_dup_sublist _ [], fun v => ?_⟩
    rw [drop_dup_filter]
    simp

/-- Witness for C10 at `pagesDupName`: the surviving entry is the first
occurrence of `C1SCORE`, with its `label` "first". -/
theorem build_variable_catalog_first_seen_wins_witness :
    ([⟨"C1", "C1SCORE", "first", 0⟩] : List CatalogEntry).Sublist
      (build_records pagesDupName 0 ["C1", "C2"]) ∧
    ([⟨"C1", "C1SCORE", "first", 0⟩] : List CatalogEntry).filter
        (fun e => e.variable_name = "C1SCORE") =
      ((build_records pagesDupName 0 ["C1", "C2"]).find?
        (fun e => e.variable_name = "C1SCORE")).toList :=
  ⟨(build_variable_catalog_first_seen_wins pagesDupName 0 ["C1", "C2"]
      [⟨"C1", "C1SCORE", "first", 0⟩] rfl).1,
   (build_variable_catalog_first_seen_wins pagesDupName 0 ["C1", "C2"]
      [⟨"C1", "C1SCORE", "first", 0⟩] rfl).2 "C1SCORE"⟩

/- ### Claim C2 -/

/-- Page range (23, 27): the page at absolute index 23 holds two qualifying
rows; the remaining four pages hold none. -/
def pagesTwoRowsOnFirst : List (List (List (Option String))) :=
  [[[some "C1", some "", some "C1SCORE", some "MMSE Total Score"],
    [some "C1", some "", some "C1DESC", some "Another score"]],
   [], [], [], []]

/-- C2 (code bug): `build_variable_catalog` stores the counter of
`enumerate(_iter_variable_rows(...), start=start)` — which advances once per
*yielded row* — as `source_page`. Here both qualifying rows sit on the page
at index 0 of the extraction, i.e. absolute page 23, yet the second entry
records `source_page = 24`: not the absolute page index of the page it was
extracted from. -/
theorem build_variable_catalog_source_page_bug :
    iter_variable_rows pagesTwoRowsOnFirst =
      [[some "C1", some "", some "C1SCORE", some "MMSE Total Score"],
       [some "C1", some "", some "C1DESC", some "Another score"]] ∧
    pagesTwoRowsOnFirst.getD 0 [] = iter_variable_rows pagesTwoRowsOnFirst ∧
    build_variable_catalog pagesTwoRowsOnFirst 23 ["C1", "C2"] =
      .ok [⟨"C1", "C1SCORE", "MMSE Total Score", 23⟩,
           ⟨"C1", "C1DESC", "Another score", 24⟩] :=
  ⟨rfl, rfl, rfl⟩

/- ### Claim C1 -/

/-- Dataset with columns `B, A` (in that order) and one record. -/
def dfBA : DataFrame := ⟨["B", "A"], [[Value.num 1, Value.num 2]]⟩

/-- Catalog listing `A` before `B`. -/
def catAB : List CatalogEntry := [⟨"", "A", "", 0⟩, ⟨"", "B", "", 0⟩]

/-- C1 counterexample: on a dataset with columns `[B, A]` and a catalog
listing `A` before `B`, `select_dataset_columns` returns the columns in the
*catalog's* order `[A, B]`, not the dataset's original order `[B, A]` the
claim asserts. -/
theorem select_dataset_columns_order_counterexample :
    (select_dataset_columns dfBA catAB).cols = ["A", "B"] ∧
    select_dataset_columns_spec_order dfBA catAB = ["B", "A"] ∧
    (select_dataset_columns dfBA catAB).cols ≠
      select_dataset_columns_spec_order dfBA catAB := by
  refine ⟨rfl, rfl, ?_⟩
  decide

/-- C1 (amended): `select_dataset_columns` returns exactly those dataset
columns whose names match a catalog `variable_name` — catalog names absent
from the dataset are skipped without error — but in the *catalog's* order,
not the dataset's column order; each selected column keeps its dataset
values. (With distinct dataset column names and distinct catalog names, the
output columns are a permutation of the dataset-order subset.) -/
theorem select_dataset_columns_amended (df : DataFrame) (catalog : List CatalogEntry)
    (h1 : df.cols.Nodup) (h2 : (catalog.map CatalogEntry.variable_name).Nodup) :
    (∀ c, c ∈ (select_dataset_columns df catalog).cols ↔
      (c ∈ df.cols ∧ ∃ e ∈ catalog, e.variable_name = c)) ∧
    (select_dataset_columns df catalog).cols.Perm
      (select_dataset_columns_spec_order df catalog) ∧
    (select_dataset_columns df catalog).cols =
      (catalog.map CatalogEntry.variable_name).filter (fun v => df.cols.contains v) ∧
    ∀ i c, c ∈ (select_dataset_columns df catalog).cols →
      lookupCell (select_dataset_columns df catalog).cols
          ((select_dataset_columns df catalog).rows.getD i []) c =
        lookupCell df.cols (df.rows.getD i []) c := by
  have hmem : ∀ c, c ∈ (select_dataset_columns df catalog).cols ↔
      (c ∈ df.cols ∧ ∃ e ∈ catalog, e.variable_name = c) := by
    intro c
    simp only [select_dataset_columns, List.mem_filter, List.mem_map,
      contains_eq_true_iff_mem]
    constructor
    · rintro ⟨⟨e, he, rfl⟩, hc⟩
      exact ⟨hc, e, he, rfl⟩
    · rintro ⟨hc, e, he, rfl⟩
      exact ⟨⟨e, he, rfl⟩, hc⟩
  refine ⟨hmem, ?_, rfl, ?_⟩
  · apply (List.perm_ext_iff_of_nodup ?_ ?_).mpr
    · intro c
      rw [hmem c]
      simp only [select_dataset_columns_spec_order, List.mem_filter,
        contains_eq_true_iff_mem, List.mem_map]
    · exact h2.filter _
    · exact h1.filter _
  · intro i c hc
    have hrows : (select_dataset_columns df catalog).rows =
        df.rows.map (fun row => (select_dataset_columns df catalog).cols.map
          (fun v => lookupCell df.cols row v)) := rfl
    by_cases hi : i < df.rows.length
    · rw [hrows, getD_map_of_lt _ df.rows i [] [] hi,
        lookupCell_map_of_mem _ _ _ hc]
    · have h1 : (df.rows.map (fun row => (select_dataset_columns df catalog).cols.map
          (fun v => lookupCell df.cols row v))).getD i [] = ([] : List Value) :=
        List.getD_eq_default _ _ (by simpa using Nat.le_of_not_lt hi)
      have h2 : df.rows.getD i [] = ([] : List Value) :=
        List.getD_eq_default _ _ (Nat.le_of_not_lt hi)
      rw [hrows, h1, h2, lookupCell_nil, lookupCell_nil]

/-- Witness for C1 (amended) at the concrete dataset and catalog above. -/
theorem select_dataset_columns_amended_witness :
    (select_dataset_columns dfBA catAB).cols =
      (catAB.map CatalogEntry.variable_name).filter (fun v => dfBA.cols.contains v) :=
  (select_dataset_columns_amended dfBA catAB (by decide) (by decide)).2.2.1

/- ### Claim C6 -/

/-- C6: the empty-row mask has exactly one flag per record, and a record's
flag is `true` iff every value in every non-excluded column is absent or
equals the missing sentinel (i.e. no non-excluded value is valid). -/
theorem compute_empty_rows_mask_correct (df : DataFrame) (exclude : List String) (m : ℚ) :
    (compute_empty_rows_mask df exclude m).length = df.rows.length ∧
    ∀ i, i < df.rows.length →
      ((compute_empty_rows_mask df exclude m).getD i false = true ↔
        ∀ c ∈ df.cols, exclude.contains c = false →
          isValid (lookupCell df.cols (df.rows.getD i []) c) m = false) := by
  constructor
  · simp [compute_empty_rows_mask]
  · intro i hi
    have hmask : (compute_empty_rows_mask df exclude m).getD i false =
        !((df.cols.filter (fun c => !(exclude.contains c))).any
          (fun c => isValid (lookupCell df.cols (df.rows.getD i []) c) m)) := by
      unfold compute_empty_rows_mask
      exact getD_map_of_lt _ df.rows i [] false hi
    rw [hmask]
    simp only [Bool.not_eq_true', List.any_eq_false, List.mem_filter,
      Bool.not_eq_true, and_imp]

/-- Dataset used by the C4 and C6 witnesses: two records; in the non-excluded
columns `X`, `Y`, record 0 holds only sentinel/absent values and record 1
holds one valid value. -/
def dfSmall : DataFrame :=
  ⟨["X", "Y", "has_MMSE"],
   [[Value.num (-4), Value.na, Value.bool false],
    [Value.num 24, Value.num (-4), Value.bool true]]⟩

/-- Witness for C6: record 0 of `dfSmall` is flagged empty. -/
theorem compute_empty_rows_mask_correct_witness :
    (compute_empty_rows_mask dfSmall ["has_MMSE", "has_MOCA"] (-4)).getD 0 false = true :=
  ((compute_empty_rows_mask_correct dfSmall ["has_MMSE", "has_MOCA"] (-4)).2 0
    (by decide)).mpr (by decide)

/- ### Claim C4 -/

/-- C4: every summary row of a non-excluded column has `Valid_Data_Count`
equal to the number of record values in that column that are non-absent and
not equal to the missing sentinel (hence at most the record count), and
`Percentage = 100 * Valid_Data_Count / n`, with `Percentage = 0` when the
table has no records; every non-excluded column has such a row. -/
theorem summarize_availability_counts_correct (df : DataFrame) (exclude : List String)
    (m : ℚ) :
    (∀ r ∈ summarize_availability_rows df exclude m,
      r.Column ∈ df.cols ∧ exclude.contains r.Column = false ∧
      r.Valid_Data_Count =
        df.rows.countP (fun row => isValid (lookupCell df.cols row r.Column) m) ∧
      r.Valid_Data_Count ≤ df.rows.length ∧
      (df.rows.length = 0 → r.Percentage = 0) ∧
      (df.rows.length ≠ 0 →
        r.Percentage = 100 * (r.Valid_Data_Count : ℚ) / (df.rows.length : ℚ))) ∧
    ∀ col ∈ df.cols, exclude.contains col = false →
      ∃ r ∈ summarize_availability_rows df exclude m, r.Column = col := by
  constructor
  · intro r hr
    unfold summarize_availability_rows at hr
    simp only [List.mem_map, List.mem_filter, Bool.not_eq_true'] at hr
    obtain ⟨col, ⟨hcol, hex⟩, rfl⟩ := hr
    refine ⟨hcol, hex, rfl, List.countP_le_length _, ?_, ?_⟩
    · intro h0
      simp [h0]
    · intro h0
      simp only [h0, ne_eq, not_false_iff, if_true]
      field_simp
      ring
  · intro col hcol hex
    have hmemf : col ∈ df.cols.filter (fun c => !(exclude.contains c)) :=
      List.mem_filter.mpr ⟨hcol, by rw [hex]; rfl⟩
    unfold summarize_availability_rows
    exact ⟨_, List.mem_map_of_mem _ hmemf, rfl⟩

/-- Witness for C4: the non-excluded column `X` of `dfSmall` has a summary
row. -/
theorem summarize_availability_counts_correct_witness :
    ∃ r ∈ summarize_availability_rows dfSmall ["has_MMSE", "has_MOCA"] (-4),
      r.Column = "X" :=
  (summarize_availability_counts_correct dfSmall ["has_MMSE", "has_MOCA"] (-4)).2
    "X" (by decide) (by decide)

/- ### Claim C5 -/

lemma lookupCell_extend (cols : List String) (row : List Value) (v : Value)
    (name c : String) (hc : c ∈ cols) (hrow : row.length = cols.length) :
    lookupCell (cols ++ [name]) (row ++ [v]) c = lookupCell cols row c := by
  obtain ⟨j, hj⟩ := colIdx_isSome_of_mem cols c hc
  have hlt := colIdx_lt_length cols c j hj
  have h2 := colIdx_append_of_some cols [name] c j hj
  simp only [lookupCell, hj, h2]
  exact getD_append_left row [v] j Value.na (by omega)

/-- Closed form of `tag_assessments` when both column groups are made of
columns of the frame and the two derived names are fresh: the result appends
the two flag columns, and each record's flag is the `any`-of-valid over its
group (`false` for an empty group). -/
lemma tag_assessments_eq (df : DataFrame) (mmse_cols moca_cols : List String) (m : ℚ)
    (hA : df.Aligned)
    (h1 : ∀ c ∈ mmse_cols, c ∈ df.cols) (h2 : ∀ c ∈ moca_cols, c ∈ df.cols)
    (h3 : "has_MMSE" ∉ df.cols) (h4 : "has_MOCA" ∉ df.cols) :
    tag_assessments df mmse_cols moca_cols m = Except.ok
      ⟨df.cols ++ ["has_MMSE", "has_MOCA"],
       df.rows.map (fun r =>
         r ++ [Value.bool (mmse_cols.any (fun c => isValid (lookupCell df.cols r c) m)),
               Value.bool (moca_cols.any (fun c => isValid (lookupCell df.cols r c) m))])⟩ := by
  have hflags1 : (if mmse_cols.isEmpty then
        (.ok (df.rows.map (fun _ => false)) : Except String (List Bool))
      else (selectAll df mmse_cols).map
        (fun sel => sel.map (fun vals => vals.any (fun v => isValid v m)))) =
      .ok (df.rows.map (fun r =>
        mmse_cols.any (fun c => isValid (lookupCell df.cols r c) m))) := by
    cases hm : mmse_cols with
    | nil => simp
    | cons a as =>
      have hall : (a :: as).all (fun c => df.cols.contains c) = true := by
        rw [List.all_eq_true]
        intro c hc
        exact (contains_eq_true_iff_mem _ _).mpr (h1 c (hm ▸ hc))
      rw [if_neg (by simp), selectAll, if_pos hall]
      simp only [Except.map, Except.ok.injEq, List.map_map]
      apply List.map_congr_left
      intro row _
      simp [any_over_map, Function.comp]
  set f1 : List Value → Bool :=
    fun r => mmse_cols.any (fun c => isValid (lookupCell df.cols r c) m) with hf1
  set f2 : List Value → Bool :=
    fun r => moca_cols.any (fun c => isValid (lookupCell df.cols r c) m) with hf2
  have hout1 : df.setCol "has_MMSE" ((df.rows.map f1).map Value.bool) =
      ⟨df.cols ++ ["has_MMSE"], df.rows.map (fun r => r ++ [Value.bool (f1 r)])⟩ := by
    simp only [DataFrame.setCol, colIdx_eq_none_of_not_mem _ _ h3]
    congr 1
    rw [List.map_map, zip_self_map, List.map_map]
    rfl
  have hrows1 : (DataFrame.mk (df.cols ++ ["has_MMSE"])
      (df.rows.map (fun r => r ++ [Value.bool (f1 r)]))).rows.length = df.rows.length := by
    simp
  have hflags2 : (if moca_cols.isEmpty then
        (.ok ((DataFrame.mk (df.cols ++ ["has_MMSE"])
          (df.rows.map (fun r => r ++ [Value.bool (f1 r)]))).rows.map (fun _ => false)) :
          Except String (List Bool))
      else (selectAll (DataFrame.mk (df.cols ++ ["has_MMSE"])
          (df.rows.map (fun r => r ++ [Value.bool (f1 r)]))) moca_cols).map
        (fun sel => sel.map (fun vals => vals.any (fun v => isValid v m)))) =
      .ok (df.rows.map f2) := by
    cases hm : moca_cols with
    | nil =>
      simp only [List.isEmpty_nil, if_true, List.map_map, Except.ok.injEq]
      apply List.map_congr_left
      intro row _
      simp [hf2, hm]
    | cons a as =>
      have hall : (a :: as).all
          (fun c => (df.cols ++ ["has_MMSE"]).contains c) = true := by
        rw [List.all_eq_true]
        intro c hc
        refine (contains_eq_true_iff_mem _ _).mpr ?_
        exact List.mem_append_left _ (h2 c (hm ▸ hc))
      rw [if_neg (by simp), selectAll, if_pos hall]
      simp only [Except.map, Except.ok.injEq, List.map_map]
      apply List.map_congr_left
      intro row hrow
      have hlen : row.length = df.cols.length := hA row hrow
      have hmapeq : (a :: as).map
          (fun c => lookupCell (df.cols ++ ["has_MMSE"])
            (row ++ [Value.bool (f1 row)]) c) =
          (a :: as).map (fun c => lookupCell df.cols row c) := by
        apply List.map_congr_left
        intro c hc
        exact lookupCell_extend df.cols row _ _ c (h2 c (hm ▸ hc)) hlen
      simp only [Function.comp]
      rw [hmapeq]
      simp only [any_over_map, Function.comp, hf2, hm]
  have hfinal : (DataFrame.mk (df.cols ++ ["has_MMSE"])
      (df.rows.map (fun r => r ++ [Value.bool (f1 r)]))).setCol "has_MOCA"
      ((df.rows.map f2).map Value.bool) =
      ⟨df.cols ++ ["has_MMSE", "has_MOCA"],
       df.rows.map (fun r => r ++ [Value.bool (f1 r), Value.bool (f2 r)])⟩ := by
    have hnone : colIdx (df.cols ++ ["has_MMSE"]) "has_MOCA" = none := by
      rw [colIdx_append_of_none _ _ _ (colIdx_eq_none_of_not_mem _ _ h4)]
      simp [colIdx]
    simp only [DataFrame.setCol, hnone]
    congr 1
    · simp
    · rw [List.map_map, List.zip_map', List.map_map]
      apply List.map_congr_left
      intro r hr
      simp
  simp only [tag_assessments]
  rw [hflags1]
  simp only []
  rw [hout1, hflags2]
  simp only []
  rw [hfinal]

lemma cell_append_two (cols : List String) (r : List Value) (b1 b2 : Value)
    (h3 : "has_MMSE" ∉ cols) (h4 : "has_MOCA" ∉ cols) (hr : r.length = cols.length) :
    lookupCell (cols ++ ["has_MMSE", "has_MOCA"]) (r ++ [b1, b2]) "has_MMSE" = b1 ∧
    lookupCell (cols ++ ["has_MMSE", "has_MOCA"]) (r ++ [b1, b2]) "has_MOCA" = b2 := by
  have hidx1 : colIdx (cols ++ ["has_MMSE", "has_MOCA"]) "has_MMSE" =
      some (0 + cols.length) := by
    rw [colIdx_append_of_none _ _ _ (colIdx_eq_none_of_not_mem _ _ h3)]
    simp [colIdx]
  have hidx2 : colIdx (cols ++ ["has_MMSE", "has_MOCA"]) "has_MOCA" =
      some (1 + cols.length) := by
    rw [colIdx_append_of_none _ _ _ (colIdx_eq_none_of_not_mem _ _ h4)]
    simp [colIdx]
  constructor
  · simp only [lookupCell, hidx1]
    have hi : 0 + cols.length = r.length + 0 := by omega
    rw [hi, getD_append_right_self]
    rfl
  · simp only [lookupCell, hidx2]
    have hi : 1 + cols.length = r.length + 1 := by omega
    rw [hi, getD_append_right_self]
    rfl

lemma cell_of_tagged (df : DataFrame) (g1 g2 : List Value → Bool) (i : Nat)
    (hA : df.Aligned) (h3 : "has_MMSE" ∉ df.cols) (h4 : "has_MOCA" ∉ df.cols)
    (hi : i < df.rows.length) :
    (DataFrame.mk (df.cols ++ ["has_MMSE", "has_MOCA"])
      (df.rows.map (fun r => r ++ [Value.bool (g1 r), Value.bool (g2 r)]))).cell i
        "has_MMSE" = Value.bool (g1 (df.rows.getD i [])) ∧
    (DataFrame.mk (df.cols ++ ["has_MMSE", "has_MOCA"])
      (df.rows.map (fun r => r ++ [Value.bool (g1 r), Value.bool (g2 r)]))).cell i
        "has_MOCA" = Value.bool (g2 (df.rows.getD i [])) := by
  have hrmem : df.rows.getD i [] ∈ df.rows := by
    rw [List.getD_eq_getElem _ _ hi]
    exact List.getElem_mem _
  have hrlen : (df.rows.getD i []).length = df.cols.length := hA _ hrmem
  have hrow := getD_map_of_lt
    (fun r => r ++ [Value.bool (g1 r), Value.bool (g2 r)]) df.rows i [] [] hi
  constructor
  · show lookupCell (df.cols ++ ["has_MMSE", "has_MOCA"])
      ((df.rows.map _).getD i []) "has_MMSE" = _
    rw [hrow]
    exact (cell_append_two df.cols _ _ _ h3 h4 hrlen).1
  · show lookupCell (df.cols ++ ["has_MMSE", "has_MOCA"])
      ((df.rows.map _).getD i []) "has_MOCA" = _
    rw [hrow]
    exact (cell_append_two df.cols _ _ _ h3 h4 hrlen).2

/-- C5: for a table whose configured column groups all name existing columns
(and whose columns do not already include the derived names),
`tag_assessments` succeeds, and each record's derived flag is `true` iff at
least one column of the group holds a value that is non-absent and not equal
to the missing sentinel; an empty group gives a constant `false` flag column
(present, not absent). -/
theorem tag_assessments_flags_correct (df : DataFrame) (mmse_cols moca_cols : List String)
    (m : ℚ) (hA : df.Aligned)
    (h1 : ∀ c ∈ mmse_cols, c ∈ df.cols) (h2 : ∀ c ∈ moca_cols, c ∈ df.cols)
    (h3 : "has_MMSE" ∉ df.cols) (h4 : "has_MOCA" ∉ df.cols) :
    ∃ out, tag_assessments df mmse_cols moca_cols m = .ok out ∧
      ∀ i, i < df.rows.length →
        (out.cell i "has_MMSE" = Value.bool true ↔
          ∃ c ∈ mmse_cols, isValid (df.cell i c) m = true) ∧
        (out.cell i "has_MOCA" = Value.bool true ↔
          ∃ c ∈ moca_cols, isValid (df.cell i c) m = true) ∧
        (mmse_cols = [] → out.cell i "has_MMSE" = Value.bool false) ∧
        (moca_cols = [] → out.cell i "has_MOCA" = Value.bool false) := by
  refine ⟨_, tag_assessments_eq df mmse_cols moca_cols m hA h1 h2 h3 h4, ?_⟩
  intro i hi
  obtain ⟨hc1, hc2⟩ := cell_of_tagged df
    (fun r => mmse_cols.any fun c => isValid (lookupCell df.cols r c) m)
    (fun r => moca_cols.any fun c => isValid (lookupCell df.cols r c) m) i hA h3 h4 hi
  rw [hc1, hc2]
  refine ⟨?_, ?_, ?_, ?_⟩
  · simp [DataFrame.cell, List.any_eq_true]
  · simp [DataFrame.cell, List.any_eq_true]
  · intro hm
    subst hm
    rfl
  · intro hm
    subst hm
    rfl

/-- Witness for C5: a one-column, one-record table with a valid value,
primary group `[A]`, empty secondary group. -/
theorem tag_assessments_flags_correct_witness :
    ∃ out, tag_assessments ⟨["A"], [[Value.num 3]]⟩ ["A"] [] (-4) = .ok out ∧
      ∀ i, i < (DataFrame.mk ["A"] [[Value.num 3]]).rows.length →
        (out.cell i "has_MMSE" = Value.bool true ↔
          ∃ c ∈ (["A"] : List String),
            isValid ((DataFrame.mk ["A"] [[Value.num 3]]).cell i c) (-4) = true) ∧
        (out.cell i "has_MOCA" = Value.bool true ↔
          ∃ c ∈ ([] : List String),
            isValid ((DataFrame.mk ["A"] [[Value.num 3]]).cell i c) (-4) = true) ∧
        ((["A"] : List String) = [] → out.cell i "has_MMSE" = Value.bool false) ∧
        (([] : List String) = [] → out.cell i "has_MOCA" = Value.bool false) :=
  tag_assessments_flags_correct ⟨["A"], [[Value.num 3]]⟩ ["A"] [] (-4)
    (by decide) (by decide) (by decide) (by decide) (by decide)

/- ### Claim C9 -/

/-- C9 counterexample: the claim says any non-empty group with a name absent
from the table makes `tag_assessments` fail, but the *second* group may name
the derived column `has_MMSE`, which exists by the time the second lookup
runs: with a table lacking `has_MMSE` and second group `["has_MMSE"]`,
`tag_assessments` succeeds and returns a tagged frame. -/
theorem tag_assessments_missing_column_counterexample :
    "has_MMSE" ∉ (DataFrame.mk ["A"] [[Value.na]]).cols ∧
    (["has_MMSE"] : List String) ≠ [] ∧
    tag_assessments ⟨["A"], [[Value.na]]⟩ [] ["has_MMSE"] (-4) =
      .ok ⟨["A", "has_MMSE", "has_MOCA"],
           [[Value.na, Value.bool false, Value.bool true]]⟩ :=
  ⟨by decide, by decide, rfl⟩

/-- C9 (amended): `tag_assessments` fails with a generic lookup error (and
produces no tagged result) whenever the first group contains a name absent
from the table's columns, or the second group contains a name neither among
the table's columns nor equal to `has_MMSE` (the first derived column, which
already exists when the second lookup runs). -/
theorem tag_assessments_missing_column_error (df : DataFrame)
    (mmse_cols moca_cols : List String) (m : ℚ)
    (h : (∃ c ∈ mmse_cols, c ∉ df.cols) ∨
         (∃ c ∈ moca_cols, c ∉ df.cols ∧ c ≠ "has_MMSE")) :
    ∃ e, tag_assessments df mmse_cols moca_cols m = .error e := by
  rcases h with ⟨c, hc, hnc⟩ | ⟨c, hc, hnc, hne⟩
  · have hne1 : mmse_cols.isEmpty = false := by
      cases mmse_cols
      · simp at hc
      · simp
    have hsel : selectAll df mmse_cols = .error "KeyError: columns not in index" := by
      unfold selectAll
      rw [if_neg]
      intro hall
      rw [List.all_eq_true] at hall
      exact hnc ((contains_eq_true_iff_mem _ _).mp (hall c hc))
    refine ⟨"KeyError: columns not in index", ?_⟩
    simp only [tag_assessments, hne1, Bool.false_eq_true, if_false, hsel, Except.map]
  · have hne2 : moca_cols.isEmpty = false := by
      cases moca_cols
      · simp at hc
      · simp
    have hsel2 : ∀ flags : List Bool,
        selectAll (df.setCol "has_MMSE" (flags.map Value.bool)) moca_cols =
          .error "KeyError: columns not in index" := by
      intro flags
      unfold selectAll
      rw [if_neg]
      intro hall
      rw [List.all_eq_true] at hall
      have hmem := (contains_eq_true_iff_mem _ _).mp (hall c hc)
      unfold DataFrame.setCol at hmem
      cases hcol : colIdx df.cols "has_MMSE" with
      | some j =>
        rw [hcol] at hmem
        exact hnc hmem
      | none =>
        rw [hcol] at hmem
        simp only [List.mem_append, List.mem_singleton] at hmem
        rcases hmem with hmem | hmem
        · exact hnc hmem
        · exact hne hmem
    rcases hstep : (if mmse_cols.isEmpty then
        (.ok (df.rows.map (fun _ => false)) : Except String (List Bool))
      else (selectAll df mmse_cols).map
        (fun sel => sel.map (fun vals => vals.any (fun v => isValid v m)))) with e | flags
    · exact ⟨e, by simp only [tag_assessments, hstep]⟩
    · refine ⟨"KeyError: columns not in index", ?_⟩
      simp only [tag_assessments, hstep]
      simp only [hne2, Bool.false_eq_true, if_false, hsel2 flags, Except.map]

/-- Witness for C9 (amended): the first group names `B`, absent from a
one-column table. -/
theorem tag_assessments_missing_column_error_witness :
    ∃ e, tag_assessments ⟨["A"], [[Value.na]]⟩ ["B"] [] (-4) = .error e :=
  tag_assessments_missing_column_error ⟨["A"], [[Value.na]]⟩ ["B"] [] (-4)
    (Or.inl ⟨"B", by decide, by decide⟩)
